import Mathlib

/-!
Verification of the alist_cli synchronization engine.

This file gives a shallow embedding of the engine's data model and
operations (the rate-limited retrying crawler in src/api/client.rs, the
download pipeline in src/utils/file_ops.rs and src/download.rs, the
checksum verifier in src/utils/crypto.rs, the rate limiter in
src/api/rate_limiter.rs, and the reconciliation pass in src/main.rs),
and proves the stated properties about them.  Network, clock and
filesystem effects are modelled by explicit environments: an oracle for
each listing attempt, an oracle for each streaming GET, a map from paths
to byte contents, and ghost fields recording calls and slept delays.
-/

set_option linter.unusedVariables false

namespace AlistCli

/-- Tagged hash value from the remote listing, mirroring the untagged serde
enum HashObject in src/api/types.rs: either a SHA-1 or an MD5 hex string. -/
inductive HashObject where
  | sha1 (value : String)
  | md5 (value : String)
deriving DecidableEq

/-- Lowercasing as str::to_lowercase performs it on the ASCII data of a hex
digest string: lowercase every character. -/
def toLowercase (s : String) : String := String.mk (s.data.map Char.toLower)

/-- Mirrors HashObject::as_hash_str (src/api/types.rs): the inner hash
string, lowercased for consistent comparison. -/
def HashObject.as_hash_str : HashObject → String
  | .sha1 s => toLowercase s
  | .md5 s => toLowercase s

/-- One row of a directory listing, mirroring EntryInfo in src/api/types.rs. -/
structure EntryInfo where
  name : String
  size : Nat
  is_dir : Bool
  modified : String
  sign : String
  thumb : String
  file_type : Nat
  created : Option String
  hashinfo : Option String
  hash_info : Option HashObject
deriving DecidableEq

/-- A folder listing payload, mirroring FoldersInfo in src/api/types.rs;
content is an Option because the service sends null for empty folders. -/
structure FoldersInfo where
  content : Option (List EntryInfo)
  total : Nat
  readme : String
  write : Bool
  provider : String
  header : String
deriving DecidableEq

/-- A single-file payload, mirroring FileInfo in src/api/types.rs (the
serde_json Value of the related field is modelled as an uninterpreted
string). -/
structure FileInfo where
  name : String
  size : Nat
  is_dir : Bool
  modified : String
  sign : String
  thumb : String
  file_type : Nat
  created : Option String
  hashinfo : Option String
  hash_info : Option HashObject
  raw_url : String
  readme : String
  header : String
  provider : String
  related : Option String
deriving DecidableEq

/-- Mirrors the untagged ApiData enum in src/api/types.rs. -/
inductive ApiData where
  | fileInfo (info : FileInfo)
  | foldersInfo (info : FoldersInfo)
deriving DecidableEq

/-- Mirrors ApiResponse in src/api/types.rs: the service envelope. -/
structure ApiResponse where
  code : Nat
  message : String
  data : Option ApiData
deriving DecidableEq

/-- Mirrors EntryWithPath in src/api/types.rs: one crawled entry together
with its absolute remote path and the provider of the folder listing that
produced it. -/
structure EntryWithPath where
  entry : EntryInfo
  path_str : String
  provider : String
deriving DecidableEq

/-- Decidable equality for Except values, used to evaluate concrete runs. -/
instance instDecEqExcept {ε α : Type} [DecidableEq ε] [DecidableEq α] :
    DecidableEq (Except ε α)
  | .ok x, .ok y =>
    if h : x = y then .isTrue (congrArg Except.ok h)
    else .isFalse (fun hc => h (Except.ok.inj hc))
  | .error x, .error y =>
    if h : x = y then .isTrue (congrArg Except.error h)
    else .isFalse (fun hc => h (Except.error.inj hc))
  | .ok _, .error _ => .isFalse (fun hc => Except.noConfusion hc)
  | .error _, .ok _ => .isFalse (fun hc => Except.noConfusion hc)

/-- Byte content of a file, one Nat per byte. -/
abbrev Bytes := List Nat

/-- A local filesystem snapshot: the byte content stored at each path, none
when no file exists there. -/
abbrev Fs := String → Option Bytes

/-- Runtime configuration, mirroring Config in src/lib.rs. -/
structure Config where
  server_address : String
  threads : Nat
  token : String
  tpslimit : Nat
  concurrent_limit : Nat
  timeout : Nat

/-- Mirrors Config::default_test_config (src/lib.rs). -/
def default_test_config : Config :=
  { server_address := "http://localhost:5244", threads := 4, token := "",
    tpslimit := 4294967295, concurrent_limit := 4, timeout := 10 }

/-! ### Checksum verifier (src/utils/crypto.rs) -/

/-- Size of the read buffer used by the hashing loop in
HashObject::hash_process_bar (src/utils/crypto.rs): 8192 bytes. -/
def CHUNK_SIZE : Nat := 8192

/-- Fuel-indexed chunking loop; the fuel is an upper bound on the number of
reads and is always instantiated so that it does not run out. -/
def readChunksGo : Nat → Bytes → List Bytes
  | _, [] => []
  | 0, _ => []
  | fuel + 1, content => content.take CHUNK_SIZE :: readChunksGo fuel (content.drop CHUNK_SIZE)

/-- The successive chunks produced by the 8192-byte read loop in
HashObject::hash_process_bar (src/utils/crypto.rs). -/
def readChunks (content : Bytes) : List Bytes :=
  readChunksGo content.length content

/-- Incremental streaming digest, modelling the digest::Digest interface
used by hash_process_bar: an initial state updated chunk by chunk and
finalized to a hex string.  The digest state is encoded as a byte list. -/
structure Hasher where
  init : Bytes
  update : Bytes → Bytes → Bytes
  finalizeHex : Bytes → String

/-- Mirrors HashObject::hash_process_bar (src/utils/crypto.rs): fold the
fixed-size chunks of the file through the digest and finalize. -/
def Hasher.hashStream (H : Hasher) (content : Bytes) : String :=
  H.finalizeHex ((readChunks content).foldl H.update H.init)

/-- Mirrors HashObject::compute_file_checksum (src/utils/crypto.rs):
dispatch on the tag to the SHA-1 or the MD5 hasher and stream the file. -/
def compute_file_checksum (sha1H md5H : Hasher) (h : HashObject) (content : Bytes) : String :=
  match h with
  | .sha1 _ => sha1H.hashStream content
  | .md5 _ => md5H.hashStream content

/-- Mirrors HashObject::verify_file_checksum (src/utils/crypto.rs): Ok false
when the local file does not exist, otherwise Ok of the comparison between
the computed digest and the lowercased remote hash string. -/
def verify_file_checksum (sha1H md5H : Hasher) (h : HashObject) (fs : Fs)
    (local_path : String) : Except String Bool :=
  match fs local_path with
  | none => .ok false
  | some content => .ok (compute_file_checksum sha1H md5H h content == h.as_hash_str)

/-! ### Download pipeline (src/utils/file_ops.rs, src/download.rs,
src/api/operations.rs) -/

namespace FileOps

/-- Maximum number of download attempts (src/utils/file_ops.rs). -/
def MAX_RETRIES : Nat := 3

/-- Initial delay for exponential backoff in ms (src/utils/file_ops.rs). -/
def INITIAL_BACKOFF_MS : Nat := 500

/-- Maximum backoff delay in ms (src/utils/file_ops.rs). -/
def MAX_BACKOFF_MS : Nat := 10000

/-- The backoff delay slept after failed attempt number `attempt`
(1-indexed), as computed in download_file_with_retries. -/
def backoffMs (attempt : Nat) : Nat :=
  min (INITIAL_BACKOFF_MS * 2 ^ (attempt - 1)) MAX_BACKOFF_MS

/-- HTTP-level response to a streaming GET: status code and body bytes. -/
structure GetResp where
  status : Nat
  body : Bytes
deriving DecidableEq

/-- Network environment for a download task: the outcome of the k-th
rate-limited GET it issues (an error models transport or limiter failure). -/
structure NetEnv where
  get : Nat → Except String GetResp

/-- Success test on an HTTP status, mirroring reqwest StatusCode::is_success. -/
def statusIsSuccess (s : Nat) : Bool := 200 ≤ s && s < 300

/-- Result of a single download attempt: the returned Result, the local
filesystem afterwards, and how many GET requests were issued. -/
structure AttemptResult where
  res : Except String Unit
  fs : Fs
  gets : Nat

/-- Mirrors attempt_download_file (src/utils/file_ops.rs): when an expected
hash is present and the local file already verifies, return Ok at once;
otherwise issue one rate-limited GET, check the status, write the body over
the destination, and, when a hash is present, re-verify the written file,
retaining it and failing on mismatch.  getIdx numbers the GETs already
issued by this task. -/
def attempt_download_file (sha1H md5H : Hasher) (env : NetEnv)
    (raw_url local_path : String) (checksum : Option HashObject) (fs : Fs)
    (getIdx : Nat) : AttemptResult :=
  let skip : Except String Bool :=
    match checksum with
    | some h => verify_file_checksum sha1H md5H h fs local_path
    | none => .ok false
  match skip with
  | .error e => { res := .error e, fs := fs, gets := 0 }
  | .ok true => { res := .ok (), fs := fs, gets := 0 }
  | .ok false =>
    match env.get getIdx with
    | .error e => { res := .error ("Request failed for '" ++ raw_url ++ "': " ++ e),
                    fs := fs, gets := 1 }
    | .ok resp =>
      if !statusIsSuccess resp.status then
        { res := .error ("Server returned error status for '" ++ raw_url ++ "'"),
          fs := fs, gets := 1 }
      else
        let fs2 : Fs := fun q => if q = local_path then some resp.body else fs q
        match checksum with
        | some h =>
          match verify_file_checksum sha1H md5H h fs2 local_path with
          | .error e => { res := .error e, fs := fs2, gets := 1 }
          | .ok true => { res := .ok (), fs := fs2, gets := 1 }
          | .ok false =>
            { res := .error "Checksum mismatch. Downloaded file does not match the expected hash.",
              fs := fs2, gets := 1 }
        | none => { res := .ok (), fs := fs2, gets := 1 }

/-- Result of the whole-task retry loop: the returned Result, the final
filesystem, the total GETs issued, and the backoff delays slept (ms). -/
structure DlResult where
  res : Except String Unit
  fs : Fs
  gets : Nat
  delays : List Nat

/-- Fuel-indexed body of the `for attempt in 1..=MAX_RETRIES` loop of
download_file_with_retries; the fuel is MAX_RETRIES + 1 - attempt and never
runs out on the loop's reachable arguments. -/
def dlGo (sha1H md5H : Hasher) (env : NetEnv) (raw_url local_path : String)
    (checksum : Option HashObject) :
    Nat → Nat → Fs → Nat → List Nat → DlResult
  | 0, _, fs, getIdx, delays =>
    { res := .error "All retry attempts have returned by this point.",
      fs := fs, gets := getIdx, delays := delays }
  | fuel + 1, attempt, fs, getIdx, delays =>
    let a := attempt_download_file sha1H md5H env raw_url local_path checksum fs getIdx
    match a.res with
    | .ok _ => { res := .ok (), fs := a.fs, gets := getIdx + a.gets, delays := delays }
    | .error e =>
      if attempt < MAX_RETRIES then
        dlGo sha1H md5H env raw_url local_path checksum fuel (attempt + 1) a.fs
          (getIdx + a.gets) (delays ++ [backoffMs attempt])
      else
        { res := .error ("Failed after attempts for '" ++ raw_url ++ "': " ++ e),
          fs := a.fs, gets := getIdx + a.gets, delays := delays }

/-- Mirrors download_file_with_retries (src/utils/file_ops.rs): up to
MAX_RETRIES attempts with capped exponential backoff between attempts. -/
def download_file_with_retries (sha1H md5H : Hasher) (env : NetEnv)
    (raw_url local_path : String) (checksum : Option HashObject) (fs : Fs) : DlResult :=
  dlGo sha1H md5H env raw_url local_path checksum MAX_RETRIES 1 fs 0 []

end FileOps

/-- Mirrors provider_checksum (src/utils/file_ops.rs): false exactly for the
provider name BaiduNetdisk, whose reported hashes are untrustworthy. -/
def provider_checksum (entry : EntryWithPath) : Bool :=
  if entry.provider == "BaiduNetdisk" then false else true

/-- The expected-hash resolution performed for each task of the bulk
download pipeline (src/download.rs, download_folders): the entry hash,
forced to none when the provider's checksums are not trustworthy. -/
def download_folders_hash_info (f : EntryWithPath) : Option HashObject :=
  if provider_checksum f then f.entry.hash_info else none

/-- The expected-hash resolution performed for each task of the
metadata-copy pipeline (src/api/operations.rs, copy_metadata): the entry
hash, passed through unchanged. -/
def copy_metadata_hash_info (f : EntryWithPath) : Option HashObject :=
  f.entry.hash_info

/-! ### Tree crawler (src/api/client.rs) -/

namespace Client

/-- Maximum number of retry attempts for failed requests
(src/api/client.rs). -/
def MAX_RETRIES : Nat := 3

/-- Delay between crawl retry attempts in ms (src/api/client.rs). -/
def RETRY_DELAY_MS : Nat := 1000

/-- Crawl state: the collected entries, the work queue of directories still
to process, the visited-path set (modelled as a list), plus ghost fields
recording the processed paths, every list call issued, and every retry
delay slept. -/
structure CrawlSt where
  entries : List EntryWithPath
  queue : List String
  visited : List String
  processed : List String
  calls : List String
  delays : List Nat
deriving DecidableEq

/-- The crawl's interface to get_api_response: the outcome of the n-th
attempt (0-based retry count) to list a path.  An error models an HTTP
failure or an undecodable response body. -/
abbrev ListApi := String → Nat → Except String ApiResponse

/-- The body of the child-appending loop of process_folder_contents for one
listing row: the child is recorded as an EntryWithPath whose path is
parent ++ "/" ++ name, and a child directory is enqueued iff its path is
newly inserted into the visited set. -/
def pushOne (current_path provider : String) (st : CrawlSt) (file : EntryInfo) : CrawlSt :=
  let full_path := current_path ++ "/" ++ file.name
  let st1 := { st with
    entries := st.entries ++ [{ entry := file, path_str := full_path, provider := provider }] }
  if file.is_dir then
    if full_path ∈ st1.visited then st1
    else { st1 with visited := full_path :: st1.visited, queue := st1.queue ++ [full_path] }
  else st1

/-- The child-appending loop over one successful listing's content in
process_folder_contents. -/
def pushContent (current_path provider : String) (content : List EntryInfo)
    (st : CrawlSt) : CrawlSt :=
  content.foldl (pushOne current_path provider) st

/-- Fuel-indexed body of the retry loop of process_folder_contents
(src/api/client.rs).  Each attempt records a list call; an attempt after
the first sleeps RETRY_DELAY_MS first; a transport error, a non-200
application code, or an invalid data shape consumes one retry; a missing
content collection returns Ok at once; a successful listing appends its
children and returns Ok.  The fuel is MAX_RETRIES + 1 - retry_count and
never runs out on reachable arguments (the Rust loop's trailing return is
likewise unreachable). -/
def processGo (api : ListApi) (current_path : String) :
    Nat → Nat → CrawlSt → Except String Unit × CrawlSt
  | 0, _, st => (.error "Failed to process directory after maximum retries", st)
  | fuel + 1, retry_count, st =>
    let st := if retry_count > 0 then { st with delays := st.delays ++ [RETRY_DELAY_MS] } else st
    let st := { st with calls := st.calls ++ [current_path] }
    match api current_path retry_count with
    | .error e =>
      if retry_count + 1 > MAX_RETRIES then (.error e, st)
      else processGo api current_path fuel (retry_count + 1) st
    | .ok resp =>
      if resp.code ≠ 200 then
        if retry_count + 1 > MAX_RETRIES then
          (.error ("API error code: " ++ resp.message), st)
        else processGo api current_path fuel (retry_count + 1) st
      else
        match resp.data with
        | some (.foldersInfo fi) =>
          match fi.content with
          | none => (.ok (), st)
          | some content => (.ok (), pushContent current_path fi.provider content st)
        | _ =>
          if retry_count + 1 > MAX_RETRIES then
            (.error "Invalid data format in API response", st)
          else processGo api current_path fuel (retry_count + 1) st

/-- Mirrors process_folder_contents (src/api/client.rs): the bounded retry
loop around one directory listing, entered with the given retry count. -/
def process_folder_contents (api : ListApi) (current_path : String) (st : CrawlSt)
    (retry_count : Nat) : Except String Unit × CrawlSt :=
  processGo api current_path (MAX_RETRIES + 1 - retry_count) retry_count st

/-- The queue-draining loop of fetch_folder_contents: pop the front path,
process it (a per-directory error is logged and dropped), and continue;
none means the fuel ran out before the queue drained. -/
def crawlLoop (api : ListApi) : Nat → CrawlSt → Option CrawlSt
  | 0, _ => none
  | fuel + 1, st =>
    match st.queue with
    | [] => some st
    | current_path :: rest =>
      let st1 := { st with queue := rest, processed := st.processed ++ [current_path] }
      let pr := process_folder_contents api current_path st1 0
      crawlLoop api fuel pr.2

/-- Mirrors fetch_folder_contents (src/api/client.rs): seeds the work queue
with the root path and drains it; the result is always a success value,
single-directory failures never abort the traversal. -/
def fetch_folder_contents (api : ListApi) (path : String) (visited : List String)
    (fuel : Nat) : Option CrawlSt :=
  crawlLoop api fuel
    { entries := [], queue := [path], visited := visited, processed := [], calls := [],
      delays := [] }

/-- Mirrors get_path_structure (src/api/client.rs): pre-inserts the root
path into the visited set, then fetches iteratively. -/
def get_path_structure (api : ListApi) (path : String) (fuel : Nat) : Option CrawlSt :=
  fetch_folder_contents api path [path] fuel

/-- An all-fields-empty folder listing used as the listing of paths outside
a finite graph's domain. -/
def emptyFolders : FoldersInfo :=
  { content := none, total := 0, readme := "", write := false, provider := "unknown",
    header := "" }

/-- A finite remote directory graph: the listing payload for each path of
its domain; paths outside the domain list as empty directories.  Nothing
constrains the references between entries, so the same path may be referred
to repeatedly or cyclically. -/
abbrev DirGraph := List (String × FoldersInfo)

/-- The listing a graph presents for a path. -/
def graphListing (g : DirGraph) (p : String) : FoldersInfo :=
  match g.lookup p with
  | some fi => fi
  | none => emptyFolders

/-- The listing API presented by a directory graph: every call succeeds
with application code 200 and a folders payload. -/
def apiOfGraph (g : DirGraph) : ListApi := fun p _ =>
  .ok { code := 200, message := "success", data := some (.foldersInfo (graphListing g p)) }

/-- All directory-child paths a graph can ever produce: for each listing in
the graph, the parent ++ "/" ++ name path of each of its directory rows. -/
def childPaths (g : DirGraph) : List String :=
  (g.map (fun pr =>
    (pr.2.content.getD []).filterMap (fun e =>
      if e.is_dir then some (pr.1 ++ "/" ++ e.name) else none))).flatten

end Client

/-! ### Rate limiter (src/api/rate_limiter.rs) -/

namespace RateLimiter

/-- The number of seconds the tokio timeout wrapped around
TPS_RATE_LIMITER.until_ready() allows in rate_limited_request and
rate_limited_get: the configured request timeout itself. -/
def rate_limiter_wait_timeout_secs (cfg : Config) : Nat := cfg.timeout

/-- The per-request HTTP timeout attached to the outgoing request in
rate_limited_request and rate_limited_get. -/
def http_request_timeout_secs (cfg : Config) : Nat := cfg.timeout

/-- Abstract timing environment for one rate-limited call: how many seconds
pass before the limiter grants a token, and the outcome of the HTTP send
once it proceeds. -/
structure CallEnv where
  tokenWaitSecs : Nat
  sendResult : Except String FileOps.GetResp

/-- Mirrors rate_limited_request (src/api/rate_limiter.rs): the limiter
wait is raced against a timeout of the configured request-timeout seconds;
exceeding it fails with the rate-limiter timeout error, otherwise the
request itself proceeds under the same configured timeout. -/
def rate_limited_request (cfg : Config) (env : CallEnv) : Except String FileOps.GetResp :=
  if env.tokenWaitSecs > rate_limiter_wait_timeout_secs cfg then .error "Rate limiter timeout"
  else env.sendResult

/-- Mirrors rate_limited_get (src/api/rate_limiter.rs): identical limiter
handling for the GET helper. -/
def rate_limited_get (cfg : Config) (env : CallEnv) : Except String FileOps.GetResp :=
  if env.tokenWaitSecs > rate_limiter_wait_timeout_secs cfg then .error "Rate limiter timeout"
  else env.sendResult

end RateLimiter

/-! ### Reconciliation pass (src/main.rs, remove_noexist_files) -/

namespace Main

/-- Prefix test between paths, on their character data (the byte-position
String primitives do not reduce in the kernel; path characters are ASCII,
so the two notions agree). -/
def strPrefix (p s : String) : Bool := List.isPrefixOf p.data s.data

/-- Dropping the first n characters of a path, on its character data. -/
def strDrop (s : String) (n : Nat) : String := String.mk (s.data.drop n)

/-- The remote path reconstructed from a local file path by
strip_prefix(local_path) followed by prepending "/", as in the filter of
remove_noexist_files; none when the local path is not under the root. -/
def remote_path_of (local_path p : String) : Option String :=
  if strPrefix (local_path ++ "/") p then
    some ("/" ++ strDrop p (local_path.length + 1))
  else none

/-- The keep-for-removal filter of remove_noexist_files: a file is reported
(and in destructive mode deleted) iff its reconstructed remote path is not
in the expected set; a failed prefix strip keeps the file. -/
def removable (existing : List String) (local_path : String) (p : String) : Bool :=
  match remote_path_of local_path p with
  | some rp => !(existing.contains rp)
  | none => true

/-- Result of the file walk of remove_noexist_files: the entries reported
non-existent, the removals attempted in order, and the error that ended the
walk, if any. -/
structure Pass1Result where
  found : List String
  attempted : List String
  err : Option String
deriving DecidableEq

/-- The first walk of remove_noexist_files over the regular files under the
root, in walk order: every removable file is reported; in destructive mode
its removal is attempted at once and a removal failure propagates
immediately, ending the walk. -/
def pass1 (existing : List String) (local_path : String) (delete : Bool)
    (removeOk : String → Bool) : List String → Pass1Result
  | [] => { found := [], attempted := [], err := none }
  | p :: rest =>
    if removable existing local_path p then
      if delete then
        if removeOk p then
          let r := pass1 existing local_path delete removeOk rest
          { r with found := p :: r.found, attempted := p :: r.attempted }
        else
          { found := [p], attempted := [p], err := some ("failed to remove " ++ p) }
      else
        let r := pass1 existing local_path delete removeOk rest
        { r with found := p :: r.found }
    else pass1 existing local_path delete removeOk rest

/-- Containment test between paths: p lies strictly inside directory d. -/
def isUnder (d p : String) : Bool := strPrefix (d ++ "/") p

/-- Whether tokio::fs::remove_dir succeeds on d: exactly when no remaining
file and no remaining other directory lies inside it. -/
def dirEmpty (remFiles remDirs : List String) (d : String) : Bool :=
  remFiles.all (fun f => !(isUnder d f)) && remDirs.all (fun d2 => !(isUnder d d2))

/-- The second, contents-first walk of remove_noexist_files: attempt
remove_dir on every directory in walk order, ignoring failures; a removal
succeeds exactly for directories left empty. -/
def pass2 (remFiles : List String) : List String → List String → List String
  | [], _ => []
  | d :: pending, remDirs =>
    if dirEmpty remFiles remDirs d then
      d :: pass2 remFiles pending (remDirs.erase d)
    else pass2 remFiles pending remDirs

/-- Overall outcome of a successful reconciliation pass. -/
structure ReconcileOutcome where
  found : List String
  removedFiles : List String
  removedDirs : List String
deriving DecidableEq

/-- Mirrors remove_noexist_files (src/main.rs): walk the regular files under
local_path ++ url_path, reporting each file absent from the expected set and
deleting it when the destructive flag is set (a failed deletion propagates
the error immediately via the question-mark operator); then walk the
directories contents-first, removing every directory left empty regardless
of the flag.  walkFiles and walkDirs are the two filesystem walks of the
root, removeOk the per-path deletion outcome. -/
def remove_noexist_files (local_path url_path : String) (existing : List String)
    (delete : Bool) (walkFiles : List String) (removeOk : String → Bool)
    (walkDirs : List String) : Except String ReconcileOutcome :=
  let r1 := pass1 existing local_path delete removeOk walkFiles
  match r1.err with
  | some e => .error e
  | none =>
    let remFiles := walkFiles.filter (fun f => !(r1.attempted.contains f))
    .ok { found := r1.found, removedFiles := r1.attempted,
          removedDirs := pass2 remFiles walkDirs walkDirs }

end Main

/-! ### Concrete fixtures used by witnesses and counterexamples -/

/-- A concrete streaming hasher: the state accumulates the bytes seen and
finalization always produces the digest string "aa". -/
def constHasher : Hasher :=
  { init := [], update := fun s c => s ++ c, finalizeHex := fun _ => "aa" }

/-- A one-file local filesystem: the path "/f" holds the bytes [1, 2]. -/
def fsOneFile : Fs := fun p => if p = "/f" then some [1, 2] else none

/-- The empty local filesystem. -/
def fsEmpty : Fs := fun _ => none

/-- A network environment whose every GET fails with a transport error. -/
def envAllFail : FileOps.NetEnv := { get := fun _ => .error "connection refused" }

/-- A network environment whose every GET returns status 200 with body
[1, 2]. -/
def env200 : FileOps.NetEnv := { get := fun _ => .ok { status := 200, body := [1, 2] } }

/-- A concrete successful hash-verified download run onto the empty
filesystem: used to exercise the idempotent-skip theorem on its result. -/
def dlRunOnce : FileOps.AttemptResult :=
  FileOps.attempt_download_file constHasher constHasher env200 "url" "/f"
    (some (.sha1 "AA")) fsEmpty 0

/-- A concrete entry served by the BaiduNetdisk provider that carries an
MD5 hash. -/
def baiduEntry : EntryWithPath :=
  { entry := { name := "a.jpg", size := 1, is_dir := false, modified := "", sign := "",
               thumb := "", file_type := 0, created := none, hashinfo := none,
               hash_info := some (.md5 "d41d8cd98f00b204e9800998ecf8427e") },
    path_str := "/A/a.jpg", provider := "BaiduNetdisk" }

/-- The empty crawl state. -/
def stEmpty : Client.CrawlSt :=
  { entries := [], queue := [], visited := [], processed := [], calls := [], delays := [] }

/-- A listing API that always reports application error code 500. -/
def apiAllFail : Client.ListApi := fun _ _ =>
  .ok { code := 500, message := "storage failure", data := none }

/-- A listing API whose every call fails at the transport level. -/
def apiErr : Client.ListApi := fun _ _ => .error "connection refused"

/-- A listing API that always succeeds with a content-null folder payload. -/
def apiNullContent : Client.ListApi := fun _ _ =>
  .ok { code := 200, message := "success", data := some (.foldersInfo Client.emptyFolders) }

/-- The crawl retry loop run against the always-failing listing API. -/
def crawlFailRun : Except String Unit × Client.CrawlSt :=
  Client.process_folder_contents apiAllFail "/d" stEmpty 0

/-- The download retry loop run against the always-failing network. -/
def dlFailRun : FileOps.DlResult :=
  FileOps.download_file_with_retries constHasher constHasher envAllFail "url" "/f" none fsEmpty

/-- A directory row named `name` as a listing would present it. -/
def dirEntry (name : String) : EntryInfo :=
  { name := name, size := 0, is_dir := true, modified := "", sign := "", thumb := "",
    file_type := 1, created := none, hashinfo := none, hash_info := none }

/-- A plain file row named `name` as a listing would present it. -/
def fileEntry (name : String) : EntryInfo :=
  { name := name, size := 4, is_dir := false, modified := "", sign := "", thumb := "",
    file_type := 0, created := none, hashinfo := none, hash_info := none }

/-- A listing API where /root holds two subdirectories of which the first
always fails with an application error, and the second holds one file. -/
def apiOneBadDir : Client.ListApi := fun p _ =>
  if p = "/root" then
    .ok { code := 200, message := "success",
          data := some (.foldersInfo { content := some [dirEntry "bad", dirEntry "good"],
                                       total := 2, readme := "", write := false,
                                       provider := "Local", header := "" }) }
  else if p = "/root/bad" then
    .ok { code := 500, message := "storage failure", data := none }
  else if p = "/root/good" then
    .ok { code := 200, message := "success",
          data := some (.foldersInfo { content := some [fileEntry "poster.jpg"],
                                       total := 1, readme := "", write := false,
                                       provider := "Local", header := "" }) }
  else .ok { code := 200, message := "success", data := some (.foldersInfo Client.emptyFolders) }

/-- The crawl state of the apiOneBadDir scenario at the moment /root/bad
reaches the head of the queue. -/
def stBadHead : Client.CrawlSt :=
  { entries := [ { entry := dirEntry "bad", path_str := "/root/bad", provider := "Local" },
                 { entry := dirEntry "good", path_str := "/root/good", provider := "Local" } ],
    queue := ["/root/bad", "/root/good"],
    visited := ["/root/good", "/root/bad", "/root"],
    processed := ["/root"],
    calls := ["/root"],
    delays := [] }

/-- Two local files under the mirror root, both absent remotely. -/
def filesTwoStale : List String := ["/out/A/a.jpg", "/out/A/b.jpg"]

/-- A deletion oracle under which removing /out/A/a.jpg fails and every
other removal succeeds. -/
def removeFailsOnA : String → Bool := fun p => p != "/out/A/a.jpg"

/-- A timing environment in which the limiter takes 11 seconds to grant a
token (one more than the default 10-second timeout). -/
def slowLimiterEnv : RateLimiter.CallEnv :=
  { tokenWaitSecs := 11, sendResult := .ok { status := 200, body := [] } }

/-- Invariant maintained by the crawl loop over a clean graph-backed API:
the visited set has no duplicates and holds only the root and graph child
paths, queued and processed paths are visited, neither repeats, no queued
path was already processed, and the list-call log coincides with the
processed list. -/
def crawlInv (g : Client.DirGraph) (root : String) (st : Client.CrawlSt) : Prop :=
  st.visited.Nodup ∧
  (∀ x ∈ st.visited, x ∈ root :: Client.childPaths g) ∧
  (∀ x ∈ st.queue, x ∈ st.visited) ∧
  st.queue.Nodup ∧
  st.processed.Nodup ∧
  (∀ x ∈ st.processed, x ∈ st.visited) ∧
  (∀ x ∈ st.queue, x ∉ st.processed) ∧
  st.calls = st.processed

end AlistCli

/-! ## Theorems -/

namespace AlistCli

/-- Claim C7: for every expected hash and local path, verify_file_checksum
returns Ok false, not an error, when the local file does not exist, and
otherwise returns Ok of the equality between the digest computed by
streaming the file in fixed-size chunks through the tagged algorithm and
the lowercased remote-supplied hash value (as_hash_str lowercases the raw
string of either tag); this same function is the one invoked by both the
pre-download skip check and the post-download verification. -/
theorem C7_verify_file_checksum (sha1H md5H : Hasher) (fs : Fs) (p : String) (h : HashObject) :
    (fs p = none → verify_file_checksum sha1H md5H h fs p = .ok false) ∧
    (∀ c, fs p = some c →
      verify_file_checksum sha1H md5H h fs p =
        .ok (compute_file_checksum sha1H md5H h c == h.as_hash_str)) ∧
    (∀ s, (HashObject.sha1 s).as_hash_str = toLowercase s ∧
          (HashObject.md5 s).as_hash_str = toLowercase s) := by
  refine ⟨fun hn => ?_, fun c hc => ?_, fun s => ⟨rfl, rfl⟩⟩
  · simp [verify_file_checksum, hn]
  · simp [verify_file_checksum, hc]

/-- Witness for C7 at a concrete hasher and one-file filesystem: the
missing path verifies to Ok false, and the present path to Ok of the digest
comparison, here true. -/
theorem C7_witness :
    verify_file_checksum constHasher constHasher (.sha1 "AA") fsOneFile "/g" = .ok false ∧
    verify_file_checksum constHasher constHasher (.sha1 "AA") fsOneFile "/f" = .ok true := by
  constructor
  · exact (C7_verify_file_checksum constHasher constHasher fsOneFile "/g" (.sha1 "AA")).1 rfl
  · have h := (C7_verify_file_checksum constHasher constHasher fsOneFile "/f"
      (.sha1 "AA")).2.1 [1, 2] rfl
    rw [h]
    decide

/-- Claim C4 counterexample: an entry served by the BaiduNetdisk provider
whose metadata-copy download task keeps its expected hash, so the expected
hash is not resolved to absent in every download path. -/
theorem C4_counterexample :
    baiduEntry.provider = "BaiduNetdisk" ∧
    copy_metadata_hash_info baiduEntry ≠ none := by
  exact ⟨rfl, by decide⟩

/-- Claim C4 amended: only the bulk download pipeline forces the expected
hash of a file from the denylisted provider BaiduNetdisk to absent; the
metadata-copy pipeline passes the entry's hash through unchanged, so a
checksum comparison can still occur there. -/
theorem C4_amended (f : EntryWithPath) (hp : f.provider = "BaiduNetdisk") :
    download_folders_hash_info f = none ∧
    copy_metadata_hash_info f = f.entry.hash_info := by
  refine ⟨?_, rfl⟩
  simp [download_folders_hash_info, provider_checksum, hp]

/-- Witness for the amended C4 at the concrete BaiduNetdisk entry. -/
theorem C4_amended_witness :
    download_folders_hash_info baiduEntry = none ∧
    copy_metadata_hash_info baiduEntry = baiduEntry.entry.hash_info :=
  C4_amended baiduEntry rfl

/-- Claim C9 counterexample: with the default configuration the limiter
wait timeout is not shorter than the per-request HTTP timeout: the same
configured value, 10 seconds, is used for both. -/
theorem C9_counterexample :
    ¬ RateLimiter.rate_limiter_wait_timeout_secs default_test_config <
        RateLimiter.http_request_timeout_secs default_test_config := by
  decide

/-- Claim C9 amended: every rate-limited call bounds its token wait with
its own timeout and fails with the rate-limiter timeout error when no token
arrives within the bound, but that bound equals the configured per-request
HTTP timeout rather than being shorter than it, in both the POST and GET
helpers. -/
theorem C9_amended (cfg : Config) (env : RateLimiter.CallEnv)
    (hw : env.tokenWaitSecs > RateLimiter.rate_limiter_wait_timeout_secs cfg) :
    RateLimiter.rate_limiter_wait_timeout_secs cfg =
      RateLimiter.http_request_timeout_secs cfg ∧
    RateLimiter.rate_limited_request cfg env = .error "Rate limiter timeout" ∧
    RateLimiter.rate_limited_get cfg env = .error "Rate limiter timeout" := by
  refine ⟨rfl, ?_, ?_⟩ <;>
    simp [RateLimiter.rate_limited_request, RateLimiter.rate_limited_get, hw]

/-- Witness for the amended C9: an 11-second token wait against the default
10-second timeout trips the limiter timeout error on both helpers. -/
theorem C9_amended_witness :
    RateLimiter.rate_limiter_wait_timeout_secs default_test_config =
      RateLimiter.http_request_timeout_secs default_test_config ∧
    RateLimiter.rate_limited_request default_test_config slowLimiterEnv =
      .error "Rate limiter timeout" ∧
    RateLimiter.rate_limited_get default_test_config slowLimiterEnv =
      .error "Rate limiter timeout" :=
  C9_amended default_test_config slowLimiterEnv (by decide)

end AlistCli

namespace AlistCli

/-- verify_file_checksum never returns an error in the filesystem model: it
is Ok false on a missing file and Ok of a comparison otherwise. -/
theorem verify_file_checksum_is_ok (sha1H md5H : Hasher) (h : HashObject) (fs : Fs)
    (p : String) : ∃ b, verify_file_checksum sha1H md5H h fs p = .ok b := by
  unfold verify_file_checksum
  cases fs p
  · exact ⟨false, rfl⟩
  · exact ⟨_, rfl⟩

/-- Claim C2: when the expected hash is present and the destination file
already verifies against it, attempt_download_file succeeds immediately,
issues zero GET requests and leaves the filesystem unchanged; moreover
after any successful run of the hash-checked download step, running the
step a second time against the resulting local file issues zero GET
requests. -/
theorem C2_download_idempotent_skip (sha1H md5H : Hasher) (env env2 : FileOps.NetEnv)
    (raw_url local_path : String) (h : HashObject) (fs : Fs) (getIdx : Nat) :
    (verify_file_checksum sha1H md5H h fs local_path = .ok true →
      FileOps.attempt_download_file sha1H md5H env raw_url local_path (some h) fs getIdx =
        { res := .ok (), fs := fs, gets := 0 }) ∧
    ((FileOps.attempt_download_file sha1H md5H env raw_url local_path (some h) fs
        getIdx).res = .ok () →
      FileOps.attempt_download_file sha1H md5H env2 raw_url local_path (some h)
          (FileOps.attempt_download_file sha1H md5H env raw_url local_path (some h) fs
            getIdx).fs 0 =
        { res := .ok (),
          fs := (FileOps.attempt_download_file sha1H md5H env raw_url local_path (some h)
            fs getIdx).fs,
          gets := 0 }) := by
  constructor
  · intro hv
    unfold FileOps.attempt_download_file
    simp only [hv]
  · intro hres
    obtain ⟨b, hv⟩ := verify_file_checksum_is_ok sha1H md5H h fs local_path
    cases b
    · -- the first run did not skip: it downloaded and post-verified
      cases hg : env.get getIdx with
      | error e =>
        have heq : FileOps.attempt_download_file sha1H md5H env raw_url local_path (some h)
            fs getIdx =
            { res := .error ("Request failed for '" ++ raw_url ++ "': " ++ e), fs := fs,
              gets := 1 } := by
          unfold FileOps.attempt_download_file
          simp [hv, hg]
        rw [heq] at hres
        simp at hres
      | ok resp =>
        cases hs : FileOps.statusIsSuccess resp.status with
        | false =>
          have heq : FileOps.attempt_download_file sha1H md5H env raw_url local_path (some h)
              fs getIdx =
              { res := .error ("Server returned error status for '" ++ raw_url ++ "'"),
                fs := fs, gets := 1 } := by
            unfold FileOps.attempt_download_file
            simp [hv, hg, hs]
          rw [heq] at hres
          simp at hres
        | true =>
          obtain ⟨b2, hv2⟩ := verify_file_checksum_is_ok sha1H md5H h
            (fun q => if q = local_path then some resp.body else fs q) local_path
          cases b2
          · have heq : FileOps.attempt_download_file sha1H md5H env raw_url local_path
                (some h) fs getIdx =
                { res := .error
                    "Checksum mismatch. Downloaded file does not match the expected hash.",
                  fs := fun q => if q = local_path then some resp.body else fs q,
                  gets := 1 } := by
              unfold FileOps.attempt_download_file
              simp [hv, hg, hs, hv2]
            rw [heq] at hres
            simp at hres
          · have heq : FileOps.attempt_download_file sha1H md5H env raw_url local_path
                (some h) fs getIdx =
                { res := .ok (),
                  fs := fun q => if q = local_path then some resp.body else fs q,
                  gets := 1 } := by
              unfold FileOps.attempt_download_file
              simp [hv, hg, hs, hv2]
            rw [heq]
            unfold FileOps.attempt_download_file
            simp [hv2]
    · -- the first run skipped: the filesystem is unchanged and still verifies
      have heq : FileOps.attempt_download_file sha1H md5H env raw_url local_path (some h)
          fs getIdx = { res := .ok (), fs := fs, gets := 0 } := by
        unfold FileOps.attempt_download_file
        simp [hv]
      rw [heq]
      unfold FileOps.attempt_download_file
      simp [hv]

/-- Witness for C2: the concrete verified file is skipped with zero GETs,
and the second run after the concrete successful download onto the empty
filesystem issues zero GETs. -/
theorem C2_witness :
    FileOps.attempt_download_file constHasher constHasher envAllFail "url" "/f"
        (some (.sha1 "AA")) fsOneFile 0 =
      { res := .ok (), fs := fsOneFile, gets := 0 } ∧
    FileOps.attempt_download_file constHasher constHasher envAllFail "url" "/f"
        (some (.sha1 "AA")) dlRunOnce.fs 0 =
      { res := .ok (), fs := dlRunOnce.fs, gets := 0 } := by
  constructor
  · exact (C2_download_idempotent_skip constHasher constHasher envAllFail envAllFail
      "url" "/f" (.sha1 "AA") fsOneFile 0).1 (by decide)
  · exact (C2_download_idempotent_skip constHasher constHasher env200 envAllFail
      "url" "/f" (.sha1 "AA") fsEmpty 0).2 rfl

/-- Claim C6: a success-code listing whose data carries a null content
collection is treated as a valid empty directory: process_folder_contents
returns Ok right after the single list call, appending no entry, sleeping
no retry delay, and leaving the queue and visited set untouched, so the
crawl simply proceeds with the rest of its queue. -/
theorem C6_content_null_is_empty_dir (api : Client.ListApi) (p m : String)
    (fi : FoldersInfo) (st : Client.CrawlSt)
    (hresp : api p 0 = .ok { code := 200, message := m, data := some (.foldersInfo fi) })
    (hc : fi.content = none) :
    Client.process_folder_contents api p st 0 =
      (.ok (), { st with calls := st.calls ++ [p] }) := by
  unfold Client.process_folder_contents
  show Client.processGo api p (3 + 1) 0 st = _
  rw [Client.processGo]
  simp [hresp, hc]

/-- Witness for C6 at the concrete content-null API: one call, Ok, no other
state change. -/
theorem C6_witness :
    Client.process_folder_contents apiNullContent "/root" stEmpty 0 =
      (.ok (), { stEmpty with calls := ["/root"] }) :=
  C6_content_null_is_empty_dir apiNullContent "/root" "success" Client.emptyFolders stEmpty
    rfl rfl

end AlistCli

namespace AlistCli

/-- With the destructive flag off, the file walk of remove_noexist_files
never errors and never attempts a removal. -/
theorem pass1_no_delete (existing : List String) (local_path : String)
    (removeOk : String → Bool) (files : List String) :
    (Main.pass1 existing local_path false removeOk files).err = none ∧
    (Main.pass1 existing local_path false removeOk files).attempted = [] := by
  induction files with
  | nil => exact ⟨rfl, rfl⟩
  | cons p rest ih =>
    by_cases hr : Main.removable existing local_path p = true
    · simpa [Main.pass1, hr] using ih
    · simpa [Main.pass1, hr] using ih

/-- Claim C5 counterexample: destructive reconciliation over two removable
files where removing the first fails returns an error at once: the walk
stops, and the second file is never examined, reported, or removed. -/
theorem C5_counterexample :
    Main.remove_noexist_files "/out" "/A" [] true filesTwoStale removeFailsOnA
        ["/out/A", "/out"] = .error "failed to remove /out/A/a.jpg" ∧
    (Main.pass1 [] "/out" true removeFailsOnA filesTwoStale).attempted = ["/out/A/a.jpg"] ∧
    (Main.pass1 [] "/out" true removeFailsOnA filesTwoStale).found = ["/out/A/a.jpg"] := by
  decide

/-- Claim C5 amended: deletion is not best-effort per entry: in destructive
mode, the first removable file whose removal fails ends the file walk
immediately: the files before it are the only ones reported or removed, the
failing file is the last one attempted, and remove_noexist_files returns
the corresponding error, so the remaining removable files are not examined
and the directory-cleanup walk does not run in that invocation. -/
theorem C5_amended (existing : List String) (local_path url_path : String)
    (removeOk : String → Bool) (pre post : List String) (p : String)
    (walkDirs : List String)
    (hpre : ∀ q ∈ pre, Main.removable existing local_path q = true → removeOk q = true)
    (hp : Main.removable existing local_path p = true) (hfail : removeOk p = false) :
    Main.pass1 existing local_path true removeOk (pre ++ p :: post) =
      { found := pre.filter (Main.removable existing local_path) ++ [p],
        attempted := pre.filter (Main.removable existing local_path) ++ [p],
        err := some ("failed to remove " ++ p) } ∧
    Main.remove_noexist_files local_path url_path existing true (pre ++ p :: post) removeOk
        walkDirs = .error ("failed to remove " ++ p) := by
  have h1 : Main.pass1 existing local_path true removeOk (pre ++ p :: post) =
      { found := pre.filter (Main.removable existing local_path) ++ [p],
        attempted := pre.filter (Main.removable existing local_path) ++ [p],
        err := some ("failed to remove " ++ p) } := by
    induction pre with
    | nil => simp [Main.pass1, hp, hfail]
    | cons q rest ih =>
      have hrest : ∀ r ∈ rest, Main.removable existing local_path r = true →
          removeOk r = true := fun r hr => hpre r (List.mem_cons_of_mem q hr)
      by_cases hq : Main.removable existing local_path q = true
      · have hok : removeOk q = true := hpre q (List.mem_cons_self q rest) hq
        simp [Main.pass1, hq, hok, ih hrest, List.filter_cons]
      · simp [Main.pass1, hq, ih hrest, List.filter_cons,
          Bool.not_eq_true _ ▸ hq]
  refine ⟨h1, ?_⟩
  unfold Main.remove_noexist_files
  rw [h1]

/-- Witness for the amended C5 at the concrete two-file scenario with an
empty prefix of successful removals. -/
theorem C5_amended_witness :
    Main.pass1 [] "/out" true removeFailsOnA filesTwoStale =
      { found := List.filter (Main.removable [] "/out") [] ++ ["/out/A/a.jpg"],
        attempted := List.filter (Main.removable [] "/out") [] ++ ["/out/A/a.jpg"],
        err := some ("failed to remove " ++ "/out/A/a.jpg") } ∧
    Main.remove_noexist_files "/out" "/A" [] true filesTwoStale removeFailsOnA
        ["/out", "/out/A"] = .error ("failed to remove " ++ "/out/A/a.jpg") :=
  C5_amended [] "/out" "/A" removeFailsOnA [] ["/out/A/b.jpg"] "/out/A/a.jpg"
    ["/out", "/out/A"]
    (fun q hq => absurd hq (List.not_mem_nil q)) (by decide) (by decide)

/-- Claim C10: only regular-file deletion is guarded by the destructive
flag: with the flag off, remove_noexist_files always succeeds with no file
removed, yet still runs the contents-first directory walk over every
directory, removing each one found empty; concretely, a non-destructive run
still removes the empty directory /out/A/empty. -/
theorem C10_empty_dirs_removed_without_flag :
    (∀ (local_path url_path : String) (existing : List String)
        (walkFiles : List String) (removeOk : String → Bool) (walkDirs : List String),
      Main.remove_noexist_files local_path url_path existing false walkFiles removeOk
          walkDirs =
        .ok { found := (Main.pass1 existing local_path false removeOk walkFiles).found,
              removedFiles := [],
              removedDirs := Main.pass2 walkFiles walkDirs walkDirs }) ∧
    Main.remove_noexist_files "/out" "/A" ["/A/x.strm"] false ["/out/A/x.strm"]
        (fun _ => true) ["/out/A/empty", "/out/A", "/out"] =
      .ok { found := [], removedFiles := [], removedDirs := ["/out/A/empty"] } := by
  constructor
  · intro lp up ex wf rok wd
    have h := pass1_no_delete ex lp rok wf
    unfold Main.remove_noexist_files
    simp [h.1, h.2]
  · decide

end AlistCli

namespace AlistCli

/-- Claim C3 counterexample: against operations failing on every attempt,
the crawler's per-directory retry loop and the downloader's per-file retry
loop do not implement one shared policy: they perform different numbers of
attempts (4 list calls versus 3 GETs) with different delay schedules (three
fixed 1000 ms sleeps versus exponential 500 ms then 1000 ms). -/
theorem C3_counterexample :
    ¬ (crawlFailRun.2.calls.length = dlFailRun.gets ∧
       crawlFailRun.2.delays = dlFailRun.delays) := by
  decide

/-- Claim C3 amended: the two retry policies are distinct local loops
rather than one shared retry-with-backoff routine: for a directory whose
every listing attempt fails at the transport level, the crawler issues
exactly 4 list calls with a fixed 1000 ms delay before each retry, while
for a file whose every GET fails, the downloader issues exactly 3 GET
attempts with exponential backoff delays of 500 ms then 1000 ms; both end
in an error. -/
theorem C3_amended (api : Client.ListApi) (p : String) (st : Client.CrawlSt)
    (sha1H md5H : Hasher) (env : FileOps.NetEnv) (raw_url local_path : String) (fs : Fs)
    (hapi : ∀ n, ∃ e, api p n = .error e)
    (henv : ∀ k, ∃ e, env.get k = .error e) :
    ((Client.process_folder_contents api p st 0).2.calls = st.calls ++ [p, p, p, p] ∧
     (Client.process_folder_contents api p st 0).2.delays =
       st.delays ++ [1000, 1000, 1000] ∧
     ∃ e, (Client.process_folder_contents api p st 0).1 = .error e) ∧
    ((FileOps.download_file_with_retries sha1H md5H env raw_url local_path none fs).gets
        = 3 ∧
     (FileOps.download_file_with_retries sha1H md5H env raw_url local_path none
       fs).delays = [500, 1000] ∧
     ∃ e, (FileOps.download_file_with_retries sha1H md5H env raw_url local_path none
       fs).res = .error e) := by
  obtain ⟨e0, h0⟩ := hapi 0
  obtain ⟨e1, h1⟩ := hapi 1
  obtain ⟨e2, h2⟩ := hapi 2
  obtain ⟨e3, h3⟩ := hapi 3
  obtain ⟨f0, g0⟩ := henv 0
  obtain ⟨f1, g1⟩ := henv 1
  obtain ⟨f2, g2⟩ := henv 2
  have hcrawl : Client.process_folder_contents api p st 0 =
      (.error e3, { st with calls := st.calls ++ [p, p, p, p],
                            delays := st.delays ++ [1000, 1000, 1000] }) := by
    show Client.processGo api p (3 + 1) 0 st = _
    simp [Client.processGo, h0, h1, h2, h3, Client.MAX_RETRIES, Client.RETRY_DELAY_MS]
  have hdl : FileOps.download_file_with_retries sha1H md5H env raw_url local_path none fs =
      { res := .error ("Failed after attempts for '" ++ raw_url ++ "': " ++
          ("Request failed for '" ++ raw_url ++ "': " ++ f2)),
        fs := fs, gets := 3, delays := [500, 1000] } := by
    show FileOps.dlGo sha1H md5H env raw_url local_path none (2 + 1) 1 fs 0 [] = _
    simp [FileOps.dlGo, FileOps.attempt_download_file, g0, g1, g2, FileOps.MAX_RETRIES,
      FileOps.backoffMs, FileOps.INITIAL_BACKOFF_MS, FileOps.MAX_BACKOFF_MS]
  rw [hcrawl, hdl]
  exact ⟨⟨rfl, rfl, e3, rfl⟩, rfl, rfl, _, rfl⟩

/-- Witness for the amended C3 at the concrete always-failing listing API
and network environment. -/
theorem C3_amended_witness :
    ((Client.process_folder_contents apiErr "/d" stEmpty 0).2.calls =
        stEmpty.calls ++ ["/d", "/d", "/d", "/d"] ∧
     (Client.process_folder_contents apiErr "/d" stEmpty 0).2.delays =
        stEmpty.delays ++ [1000, 1000, 1000] ∧
     ∃ e, (Client.process_folder_contents apiErr "/d" stEmpty 0).1 = .error e) ∧
    ((FileOps.download_file_with_retries constHasher constHasher envAllFail "url" "/f"
        none fsEmpty).gets = 3 ∧
     (FileOps.download_file_with_retries constHasher constHasher envAllFail "url" "/f"
        none fsEmpty).delays = [500, 1000] ∧
     ∃ e, (FileOps.download_file_with_retries constHasher constHasher envAllFail "url"
        "/f" none fsEmpty).res = .error e) :=
  C3_amended apiErr "/d" stEmpty constHasher constHasher envAllFail "url" "/f" fsEmpty
    (fun n => ⟨"connection refused", rfl⟩) (fun k => ⟨"connection refused", rfl⟩)

/-- A retry loop that ends in an error leaves the crawl state untouched
apart from its call and delay logs: for every listing API, retry count and
state, an error result of processGo has the queue, visited set, entry list
and processed list of its input state. -/
theorem processGo_error_frame (api : Client.ListApi) (p : String) :
    ∀ (fuel rc : Nat) (st : Client.CrawlSt) (e : String),
      (Client.processGo api p fuel rc st).1 = .error e →
      (Client.processGo api p fuel rc st).2.queue = st.queue ∧
      (Client.processGo api p fuel rc st).2.visited = st.visited ∧
      (Client.processGo api p fuel rc st).2.entries = st.entries ∧
      (Client.processGo api p fuel rc st).2.processed = st.processed := by
  intro fuel
  induction fuel with
  | zero => intro rc st e herr; exact ⟨rfl, rfl, rfl, rfl⟩
  | succ fuel ih =>
    intro rc st e herr
    simp only [Client.processGo] at herr ⊢
    cases hresp : api p rc with
    | error err =>
      simp only [hresp] at herr ⊢
      by_cases hb : rc + 1 > Client.MAX_RETRIES
      · simp only [if_pos hb] at herr ⊢
        by_cases hrc : rc > 0 <;> simp [hrc]
      · simp only [if_neg hb] at herr ⊢
        by_cases hrc : rc > 0
        · simp only [hrc, if_true] at herr ⊢
          simpa using ih (rc + 1) _ e herr
        · simp only [hrc, if_false] at herr ⊢
          simpa using ih (rc + 1) _ e herr
    | ok resp =>
      simp only [hresp] at herr ⊢
      by_cases hcode : resp.code = 200
      · have hcond : ¬ (resp.code ≠ 200) := fun hcon => hcon hcode
        simp only [if_neg hcond] at herr ⊢
        cases hdata : resp.data with
        | none =>
          simp only [hdata] at herr ⊢
          by_cases hb : rc + 1 > Client.MAX_RETRIES
          · simp only [if_pos hb] at herr ⊢
            by_cases hrc : rc > 0 <;> simp [hrc]
          · simp only [if_neg hb] at herr ⊢
            by_cases hrc : rc > 0
            · simp only [hrc, if_true] at herr ⊢
              simpa using ih (rc + 1) _ e herr
            · simp only [hrc, if_false] at herr ⊢
              simpa using ih (rc + 1) _ e herr
        | some ad =>
          cases ad with
          | fileInfo info =>
            simp only [hdata] at herr ⊢
            by_cases hb : rc + 1 > Client.MAX_RETRIES
            · simp only [if_pos hb] at herr ⊢
              by_cases hrc : rc > 0 <;> simp [hrc]
            · simp only [if_neg hb] at herr ⊢
              by_cases hrc : rc > 0
              · simp only [hrc, if_true] at herr ⊢
                simpa using ih (rc + 1) _ e herr
              · simp only [hrc, if_false] at herr ⊢
                simpa using ih (rc + 1) _ e herr
          | foldersInfo fi =>
            simp only [hdata] at herr
            cases hc : fi.content with
            | none => simp [hc] at herr
            | some content => simp [hc] at herr
      · have hcond : resp.code ≠ 200 := hcode
        simp only [if_pos hcond] at herr ⊢
        by_cases hb : rc + 1 > Client.MAX_RETRIES
        · simp only [if_pos hb] at herr ⊢
          by_cases hrc : rc > 0 <;> simp [hrc]
        · simp only [if_neg hb] at herr ⊢
          by_cases hrc : rc > 0
          · simp only [hrc, if_true] at herr ⊢
            simpa using ih (rc + 1) _ e herr
          · simp only [hrc, if_false] at herr ⊢
            simpa using ih (rc + 1) _ e herr

/-- A crawl-loop run that completes never abandons its queue: for every
listing API, fuel and state, a some result carries an empty queue, every
queued directory having been popped and processed on the way. -/
theorem crawlLoop_some_queue_nil (api : Client.ListApi) :
    ∀ (fuel : Nat) (st st2 : Client.CrawlSt),
      Client.crawlLoop api fuel st = some st2 → st2.queue = [] := by
  intro fuel
  induction fuel with
  | zero => intro st st2 h; cases h
  | succ f ih =>
    intro st st2 h
    rw [Client.crawlLoop] at h
    cases hq : st.queue with
    | nil =>
      rw [hq] at h
      cases h
      exact hq
    | cons q qs =>
      rw [hq] at h
      exact ih _ _ h

/-- Claim C8: for every crawl, once the retry budget for the directory at
the head of the queue is exhausted and its processing returns an error, the
loop logs and drops the error and continues with exactly the remaining
queued directories: the entries collected so far are retained, the visited
set is unchanged, and only the failed path is marked processed; moreover
every crawl-loop run that completes has drained its entire queue and, the
loop having no failing return at all (mirroring fetch_folder_contents,
which always returns Ok of its accumulated entries), a single failed
directory never makes the whole traversal return an error. -/
theorem C8_crawl_survives_failed_directory (api : Client.ListApi) (st : Client.CrawlSt)
    (p : String) (rest : List String) (e : String) (fuel : Nat)
    (hq : st.queue = p :: rest)
    (herr : (Client.process_folder_contents api p
        { st with queue := rest, processed := st.processed ++ [p] } 0).1 = .error e) :
    (∃ st2, Client.crawlLoop api (fuel + 1) st = Client.crawlLoop api fuel st2 ∧
       st2.queue = rest ∧ st2.entries = st.entries ∧ st2.visited = st.visited ∧
       st2.processed = st.processed ++ [p]) ∧
    (∀ (fuel2 : Nat) (st3 st4 : Client.CrawlSt),
       Client.crawlLoop api fuel2 st3 = some st4 → st4.queue = []) := by
  constructor
  · have herr2 : (Client.processGo api p (Client.MAX_RETRIES + 1 - 0) 0
        { st with queue := rest, processed := st.processed ++ [p] }).1 = .error e := herr
    have hfr := processGo_error_frame api p (Client.MAX_RETRIES + 1 - 0) 0
      { st with queue := rest, processed := st.processed ++ [p] } e herr2
    refine ⟨(Client.process_folder_contents api p
        { st with queue := rest, processed := st.processed ++ [p] } 0).2,
      by simp [Client.crawlLoop, hq], ?_, ?_, ?_, ?_⟩
    · simpa using hfr.1
    · simpa using hfr.2.2.1
    · simpa using hfr.2.1
    · simpa using hfr.2.2.2
  · exact fun fuel2 st3 st4 h => crawlLoop_some_queue_nil api fuel2 st3 st4 h

/-- Witness for C8 at the concrete one-bad-directory scenario: with
/root/bad (whose 4 list attempts all fail) at the head of the queue, the
loop proceeds to the remaining queue ["/root/good"] keeping all entries,
and every completed run of that crawl has drained its queue. -/
theorem C8_witness :
    (∃ st2, Client.crawlLoop apiOneBadDir (8 + 1) stBadHead =
        Client.crawlLoop apiOneBadDir 8 st2 ∧
       st2.queue = ["/root/good"] ∧ st2.entries = stBadHead.entries ∧
       st2.visited = stBadHead.visited ∧
       st2.processed = stBadHead.processed ++ ["/root/bad"]) ∧
    (∀ (fuel2 : Nat) (st3 st4 : Client.CrawlSt),
       Client.crawlLoop apiOneBadDir fuel2 st3 = some st4 → st4.queue = []) :=
  C8_crawl_survives_failed_directory apiOneBadDir stBadHead "/root/bad" ["/root/good"]
    "API error code: storage failure" 8 rfl (by decide)

end AlistCli

namespace AlistCli

/-- A successful association-list lookup locates a pair of the list. -/
theorem mem_of_lookup_eq_some {g : Client.DirGraph} {p : String} {fi : FoldersInfo} :
    List.lookup p g = some fi → (p, fi) ∈ g := by
  induction g with
  | nil => intro h; cases h
  | cons hd tl ih =>
    intro h
    obtain ⟨k, v⟩ := hd
    cases hbeq : p == k with
    | true =>
      simp only [List.lookup, hbeq] at h
      cases h
      have hpk : p = k := eq_of_beq hbeq
      subst hpk
      exact List.mem_cons_self _ _
    | false =>
      simp only [List.lookup, hbeq] at h
      exact List.mem_cons_of_mem _ (ih h)

/-- The path of a directory row of any listing of the graph is one of the
graph's child paths. -/
theorem mem_childPaths {g : Client.DirGraph} {p : String} {fi : FoldersInfo}
    {content : List EntryInfo} {e : EntryInfo}
    (hg : (p, fi) ∈ g) (hc : fi.content = some content) (he : e ∈ content)
    (hd : e.is_dir = true) :
    p ++ "/" ++ e.name ∈ Client.childPaths g := by
  unfold Client.childPaths
  rw [List.mem_flatten]
  refine ⟨(fi.content.getD []).filterMap
    (fun e2 => if e2.is_dir then some (p ++ "/" ++ e2.name) else none), ?_, ?_⟩
  · exact List.mem_map_of_mem _ hg
  · rw [List.mem_filterMap]
    refine ⟨e, ?_, ?_⟩
    · rw [hc]; simpa using he
    · simp [hd]

/-- One unfolding of the child-appending fold. -/
theorem pushContent_cons (current provider : String) (f : EntryInfo)
    (rest : List EntryInfo) (st : Client.CrawlSt) :
    Client.pushContent current provider (f :: rest) st =
      Client.pushContent current provider rest (Client.pushOne current provider st f) := rfl

/-- Effect of appending one listing's children: the queue is extended by
exactly the newly visited directory paths, which are prepended to the
visited set; they are mutually distinct, absent from the old visited set,
and all of the form parent ++ "/" ++ name for a directory row; the
processed, call and delay logs are untouched. -/
theorem pushContent_spec (current provider : String) (content : List EntryInfo)
    (st : Client.CrawlSt) :
    ∃ new : List String,
      (Client.pushContent current provider content st).queue = st.queue ++ new ∧
      (Client.pushContent current provider content st).visited =
        new.reverse ++ st.visited ∧
      new.Nodup ∧
      (∀ x ∈ new, x ∉ st.visited) ∧
      (∀ x ∈ new, ∃ e ∈ content, e.is_dir = true ∧ x = current ++ "/" ++ e.name) ∧
      (Client.pushContent current provider content st).processed = st.processed ∧
      (Client.pushContent current provider content st).calls = st.calls ∧
      (Client.pushContent current provider content st).delays = st.delays := by
  induction content generalizing st with
  | nil =>
    refine ⟨[], by simp [Client.pushContent], by simp [Client.pushContent],
      List.nodup_nil, fun x hx => absurd hx (List.not_mem_nil x),
      fun x hx => absurd hx (List.not_mem_nil x), by simp [Client.pushContent],
      by simp [Client.pushContent], by simp [Client.pushContent]⟩
  | cons f rest ih =>
    rw [pushContent_cons]
    by_cases hdir : f.is_dir = true
    · by_cases hmem : (current ++ "/" ++ f.name) ∈ st.visited
      · have hone : Client.pushOne current provider st f =
            { st with entries := st.entries ++
                [{ entry := f, path_str := current ++ "/" ++ f.name,
                   provider := provider }] } := by
          simp [Client.pushOne, hdir, hmem]
        rw [hone]
        obtain ⟨new, hq, hv, hnd, hnv, horig, hproc, hcalls, hdel⟩ :=
          ih { st with entries := st.entries ++
            [{ entry := f, path_str := current ++ "/" ++ f.name, provider := provider }] }
        exact ⟨new, hq, hv, hnd, hnv,
          fun x hx => (horig x hx).elim
            (fun e he => ⟨e, List.mem_cons_of_mem f he.1, he.2⟩),
          hproc, hcalls, hdel⟩
      · have hone : Client.pushOne current provider st f =
            { st with
              entries := st.entries ++
                [{ entry := f, path_str := current ++ "/" ++ f.name,
                   provider := provider }],
              visited := (current ++ "/" ++ f.name) :: st.visited,
              queue := st.queue ++ [current ++ "/" ++ f.name] } := by
          simp [Client.pushOne, hdir, hmem]
        rw [hone]
        obtain ⟨new, hq, hv, hnd, hnv, horig, hproc, hcalls, hdel⟩ :=
          ih { st with
            entries := st.entries ++
              [{ entry := f, path_str := current ++ "/" ++ f.name, provider := provider }],
            visited := (current ++ "/" ++ f.name) :: st.visited,
            queue := st.queue ++ [current ++ "/" ++ f.name] }
        refine ⟨(current ++ "/" ++ f.name) :: new, ?_, ?_, ?_, ?_, ?_, hproc, hcalls, hdel⟩
        · rw [hq]; simp
        · rw [hv]; simp
        · refine List.nodup_cons.mpr ⟨?_, hnd⟩
          intro hin
          exact hnv _ hin (List.mem_cons_self _ _)
        · intro x hx
          rcases List.mem_cons.mp hx with hx1 | hx2
          · subst hx1; exact hmem
          · exact fun hvst => hnv x hx2 (List.mem_cons_of_mem _ hvst)
        · intro x hx
          rcases List.mem_cons.mp hx with hx1 | hx2
          · exact ⟨f, List.mem_cons_self f rest, hdir, hx1⟩
          · obtain ⟨e, he, hed, hex⟩ := horig x hx2
            exact ⟨e, List.mem_cons_of_mem f he, hed, hex⟩
    · have hone : Client.pushOne current provider st f =
          { st with entries := st.entries ++
              [{ entry := f, path_str := current ++ "/" ++ f.name,
                 provider := provider }] } := by
        simp [Client.pushOne, hdir]
      rw [hone]
      obtain ⟨new, hq, hv, hnd, hnv, horig, hproc, hcalls, hdel⟩ :=
        ih { st with entries := st.entries ++
          [{ entry := f, path_str := current ++ "/" ++ f.name, provider := provider }] }
      exact ⟨new, hq, hv, hnd, hnv,
        fun x hx => (horig x hx).elim
          (fun e he => ⟨e, List.mem_cons_of_mem f he.1, he.2⟩),
        hproc, hcalls, hdel⟩

end AlistCli

namespace AlistCli

/-- Against the clean graph-backed API every directory is processed
successfully in exactly one list call: a content-null listing changes
nothing beyond the call log, any other listing appends its children. -/
theorem process_apiOfGraph (g : Client.DirGraph) (p : String) (st : Client.CrawlSt) :
    Client.process_folder_contents (Client.apiOfGraph g) p st 0 =
      (.ok (),
        match (Client.graphListing g p).content with
        | none => { st with calls := st.calls ++ [p] }
        | some content =>
          Client.pushContent p (Client.graphListing g p).provider content
            { st with calls := st.calls ++ [p] }) := by
  show Client.processGo (Client.apiOfGraph g) p (3 + 1) 0 st = _
  cases hc : (Client.graphListing g p).content with
  | none => simp [Client.processGo, Client.apiOfGraph, hc]
  | some content => simp [Client.processGo, Client.apiOfGraph, hc]

/-- One clean processing step of the crawl: it succeeds, extends the queue
by exactly the newly visited child paths (distinct, previously unvisited,
and all graph child paths), logs exactly one list call, and leaves the
processed log unchanged. -/
theorem process_step_spec (g : Client.DirGraph) (p : String) (st : Client.CrawlSt) :
    ∃ new : List String,
      (Client.process_folder_contents (Client.apiOfGraph g) p st 0).2.queue =
        st.queue ++ new ∧
      (Client.process_folder_contents (Client.apiOfGraph g) p st 0).2.visited =
        new.reverse ++ st.visited ∧
      new.Nodup ∧
      (∀ x ∈ new, x ∉ st.visited) ∧
      (∀ x ∈ new, x ∈ Client.childPaths g) ∧
      (Client.process_folder_contents (Client.apiOfGraph g) p st 0).2.processed =
        st.processed ∧
      (Client.process_folder_contents (Client.apiOfGraph g) p st 0).2.calls =
        st.calls ++ [p] := by
  rw [process_apiOfGraph]
  cases hc : (Client.graphListing g p).content with
  | none =>
    exact ⟨[], by simp, by simp, List.nodup_nil,
      fun x hx => absurd hx (List.not_mem_nil x),
      fun x hx => absurd hx (List.not_mem_nil x), by simp, by simp⟩
  | some content =>
    obtain ⟨new, hq, hv, hnd, hnv, horig, hproc, hcalls, hdel⟩ :=
      pushContent_spec p (Client.graphListing g p).provider content
        { st with calls := st.calls ++ [p] }
    cases hlk : List.lookup p g with
    | none =>
      exfalso
      have hgl : Client.graphListing g p = Client.emptyFolders := by
        simp [Client.graphListing, hlk]
      rw [hgl] at hc
      simp [Client.emptyFolders] at hc
    | some fi =>
      have hgl : Client.graphListing g p = fi := by
        simp [Client.graphListing, hlk]
      have hfid : fi.content = some content := by rw [← hgl]; exact hc
      have hmemg : (p, fi) ∈ g := mem_of_lookup_eq_some hlk
      refine ⟨new, by simpa using hq, by simpa using hv, hnd,
        fun x hx => by simpa using hnv x hx, ?_, by simpa using hproc,
        by simpa using hcalls⟩
      intro x hx
      obtain ⟨e, he, hed, hex⟩ := horig x hx
      subst hex
      exact mem_childPaths hmemg hfid he hed

end AlistCli

namespace AlistCli

/-- The crawl loop over a clean graph-backed API terminates whenever it is
given more fuel than its queue length plus the number of not-yet-visited
candidate paths, draining the queue while maintaining the crawl invariant. -/
theorem crawlLoop_apiOfGraph_total (g : Client.DirGraph) (root : String) :
    ∀ (fuel : Nat) (st : Client.CrawlSt), crawlInv g root st →
      st.queue.length + ((root :: Client.childPaths g).length - st.visited.length) <
        fuel →
      ∃ st2, Client.crawlLoop (Client.apiOfGraph g) fuel st = some st2 ∧
        crawlInv g root st2 ∧ st2.queue = [] := by
  intro fuel
  induction fuel with
  | zero => intro st hinv hm; omega
  | succ fuel ih =>
    intro st hinv hm
    obtain ⟨hvnd, hvS, hqv, hqnd, hpnd, hpv, hqp, hcp⟩ := hinv
    cases hq : st.queue with
    | nil =>
      exact ⟨st, by simp [Client.crawlLoop, hq], ⟨hvnd, hvS, hqv, hqnd, hpnd, hpv, hqp, hcp⟩,
        hq⟩
    | cons p rest =>
      have hpq : p ∈ st.queue := by rw [hq]; exact List.mem_cons_self _ _
      have hpvst : p ∈ st.visited := hqv p hpq
      have hrestv : ∀ x ∈ rest, x ∈ st.visited := fun x hx =>
        hqv x (by rw [hq]; exact List.mem_cons_of_mem _ hx)
      have hqnd' := hq ▸ hqnd
      have hrestnd : rest.Nodup := (List.nodup_cons.mp hqnd').2
      have hpnrest : p ∉ rest := (List.nodup_cons.mp hqnd').1
      have hpnp : p ∉ st.processed := hqp p hpq
      obtain ⟨new, hq2, hv2, hnd2, hnv2, hcpnew, hproc2, hcalls2⟩ :=
        process_step_spec g p { st with queue := rest, processed := st.processed ++ [p] }
      have hq2' : (Client.process_folder_contents (Client.apiOfGraph g) p
          { st with queue := rest, processed := st.processed ++ [p] } 0).2.queue =
          rest ++ new := by simpa using hq2
      have hv2' : (Client.process_folder_contents (Client.apiOfGraph g) p
          { st with queue := rest, processed := st.processed ++ [p] } 0).2.visited =
          new.reverse ++ st.visited := by simpa using hv2
      have hnv2' : ∀ x ∈ new, x ∉ st.visited := fun x hx => by simpa using hnv2 x hx
      have hproc2' : (Client.process_folder_contents (Client.apiOfGraph g) p
          { st with queue := rest, processed := st.processed ++ [p] } 0).2.processed =
          st.processed ++ [p] := by simpa using hproc2
      have hcalls2' : (Client.process_folder_contents (Client.apiOfGraph g) p
          { st with queue := rest, processed := st.processed ++ [p] } 0).2.calls =
          st.calls ++ [p] := by simpa using hcalls2
      set st2 := (Client.process_folder_contents (Client.apiOfGraph g) p
        { st with queue := rest, processed := st.processed ++ [p] } 0).2 with hst2
      have hstep : Client.crawlLoop (Client.apiOfGraph g) (fuel + 1) st =
          Client.crawlLoop (Client.apiOfGraph g) fuel st2 := by
        simp [Client.crawlLoop, hq, hst2]
      -- the invariant is preserved
      have hvnd2 : st2.visited.Nodup := by
        rw [hv2']
        exact (List.nodup_reverse.mpr hnd2).append hvnd
          (List.disjoint_left.mpr (fun x hx => hnv2' x (List.mem_reverse.mp hx)))
      have hvS2 : ∀ x ∈ st2.visited, x ∈ root :: Client.childPaths g := by
        rw [hv2']
        intro x hx
        rcases List.mem_append.mp hx with hx1 | hx2
        · exact List.mem_cons_of_mem _ (hcpnew x (List.mem_reverse.mp hx1))
        · exact hvS x hx2
      have hqv2 : ∀ x ∈ st2.queue, x ∈ st2.visited := by
        rw [hq2', hv2']
        intro x hx
        rcases List.mem_append.mp hx with hx1 | hx2
        · exact List.mem_append.mpr (.inr (hrestv x hx1))
        · exact List.mem_append.mpr (.inl (List.mem_reverse.mpr hx2))
      have hqnd2 : st2.queue.Nodup := by
        rw [hq2']
        exact hrestnd.append hnd2
          (List.disjoint_left.mpr (fun x hx hx2 => hnv2' x hx2 (hrestv x hx)))
      have hpnd2 : st2.processed.Nodup := by
        rw [hproc2']
        refine hpnd.append (List.nodup_singleton p) (List.disjoint_left.mpr ?_)
        intro x hx hx2
        rw [List.mem_singleton.mp hx2] at hx
        exact hpnp hx
      have hpv2 : ∀ x ∈ st2.processed, x ∈ st2.visited := by
        rw [hproc2', hv2']
        intro x hx
        rcases List.mem_append.mp hx with hx1 | hx2
        · exact List.mem_append.mpr (.inr (hpv x hx1))
        · rw [List.mem_singleton.mp hx2]
          exact List.mem_append.mpr (.inr hpvst)
      have hqp2 : ∀ x ∈ st2.queue, x ∉ st2.processed := by
        rw [hq2', hproc2']
        intro x hx hx2
        rcases List.mem_append.mp hx with hx1 | hx1
        · rcases List.mem_append.mp hx2 with hx3 | hx3
          · exact hqp x (by rw [hq]; exact List.mem_cons_of_mem _ hx1) hx3
          · rw [List.mem_singleton.mp hx3] at hx1
            exact hpnrest hx1
        · rcases List.mem_append.mp hx2 with hx3 | hx3
          · exact hnv2' x hx1 (hpv x hx3)
          · rw [List.mem_singleton.mp hx3] at hx1
            exact hnv2' p hx1 hpvst
      have hcp2 : st2.calls = st2.processed := by
        rw [hcalls2', hproc2', hcp]
      -- the measure decreases
      have hm2 : st2.queue.length +
          ((root :: Client.childPaths g).length - st2.visited.length) < fuel := by
        have hlen2 : st2.visited.length = new.length + st.visited.length := by
          rw [hv2']
          simp
        have hle : st2.visited.length ≤ (root :: Client.childPaths g).length :=
          ((hvnd2.subperm (fun x hx => hvS2 x hx)).length_le)
        have hql2 : st2.queue.length = rest.length + new.length := by
          rw [hq2']
          simp
        rw [hq] at hm
        simp only [List.length_cons] at hm hle ⊢
        rw [hql2, hlen2]
        rw [hlen2] at hle
        omega
      obtain ⟨st3, hrun, hinv3, hq3⟩ := ih st2
        ⟨hvnd2, hvS2, hqv2, hqnd2, hpnd2, hpv2, hqp2, hcp2⟩ hm2
      exact ⟨st3, by rw [hstep]; exact hrun, hinv3, hq3⟩

/-- Claim C1: for every finite directory graph, however repetitive or
cyclic its references, the crawl from any root terminates (a fuel bound
derived from the graph suffices to drain the queue), and it issues at most
one list call per unique absolute path: the finished crawl's list-call log
equals its processed-path list and contains no duplicates, because a
directory is enqueued only when its insertion into the visited set
succeeds and the root is pre-inserted by get_path_structure. -/
theorem C1_crawl_visits_each_path_once (g : Client.DirGraph) (root : String) :
    ∃ (fuel : Nat) (st : Client.CrawlSt),
      Client.get_path_structure (Client.apiOfGraph g) root fuel = some st ∧
      st.calls.Nodup ∧ st.calls = st.processed ∧ st.queue = [] := by
  have hinv0 : crawlInv g root
      { entries := [], queue := [root], visited := [root], processed := [], calls := [],
        delays := [] } := by
    refine ⟨List.nodup_singleton root, ?_, ?_, List.nodup_singleton root,
      List.nodup_nil, ?_, ?_, rfl⟩
    · intro x hx
      rw [List.mem_singleton.mp hx]
      exact List.mem_cons_self _ _
    · intro x hx
      exact hx
    · intro x hx
      exact absurd hx (List.not_mem_nil x)
    · intro x hx h2
      exact absurd h2 (List.not_mem_nil x)
  obtain ⟨st2, hrun, hinv2, hq2⟩ := crawlLoop_apiOfGraph_total g root
    ((root :: Client.childPaths g).length + 1)
    { entries := [], queue := [root], visited := [root], processed := [], calls := [],
      delays := [] } hinv0
    (by simp only [List.length_cons, List.length_nil]; omega)
  obtain ⟨_, _, _, _, hpnd2, _, _, hcp2⟩ := hinv2
  refine ⟨(root :: Client.childPaths g).length + 1, st2, hrun, ?_, hcp2, hq2⟩
  rw [hcp2]
  exact hpnd2

end AlistCli
